import Mathlib

/-!
Verification of the `SelfObjectModel` prototype-based object engine
(`src/SelfObjectModel.py`).

Python objects have identity and the slot/parent graph may be cyclic, so the
embedding uses an explicit heap: every `SelfObjectModel` instance is a cell in
a `List Obj`, and every reference to an object is its index (`ObjId`).  The
containers `slots`, `parent_slots` and `messages` are stored inline in a cell;
`copy()` therefore corresponds to appending a new cell holding the same field
values (fresh containers, shared `ObjId` references), exactly the one-level
shallow copy of the source.

`evaluate` / `send_message` are mutually recursive in the source and need not
terminate (a graph may evaluate itself forever), so they take a fuel
parameter; `_bfs_lookup` by contrast is guarded by the visited set and is
embedded fuel-free, by well-founded recursion on
(number of unvisited heap cells, queue length).
-/

namespace SelfModel

/-- A reference to an object: its index in the heap. Mirrors Python object
identity (`id(...)`). -/
abbrev ObjId := Nat

/-- Opaque primitive payloads used by the repository: strings, integers and
booleans (the host may store anything; these cover every value the source and
its driver use, including the falsy non-None values `0`, `False`, `""`). -/
inductive PrimValue where
  | pstr (s : String)
  | pint (n : Int)
  | pbool (b : Bool)
deriving DecidableEq, Repr

/-- The native (host-supplied) behaviors appearing in the repository.  The
only primitive function the source defines is `echo` (lines 125-126):
`def echo(call_obj): return call_obj.slots["parameter"]`. -/
inductive PrimFn where
  | echo
deriving DecidableEq, Repr

/-- One `SelfObjectModel` instance (source lines 4-9).  `slots` is the
insertion-ordered dict mapping names to object references, `parent_slots` the
ordered parent list, `messages` the message script; `primitive_value` and
`primitive_function` are the optional payload/behavior (`None` = `none`). -/
structure Obj where
  slots : List (String × ObjId) := []
  parent_slots : List ObjId := []
  messages : List String := []
  primitive_value : Option PrimValue := none
  primitive_function : Option PrimFn := none
deriving DecidableEq, Repr

/-- The heap: cell `i` is the object with identity `i`. -/
abbrev Heap := List Obj

/-- Python dict read `d[k]` / `k in d`: first (unique) matching key. -/
def dictGet (m : List (String × ObjId)) (k : String) : Option ObjId :=
  match m with
  | [] => none
  | (k2, v) :: rest => if k2 = k then some v else dictGet rest k

/-- Python dict write `d[k] = v`: overwrite in place if the key exists
(keeping insertion order), else append. -/
def dictInsert (m : List (String × ObjId)) (k : String) (v : ObjId) :
    List (String × ObjId) :=
  match m with
  | [] => [(k, v)]
  | (k2, v2) :: rest =>
      if k2 = k then (k, v) :: rest else (k2, v2) :: dictInsert rest k v

/-- The errors the engine can raise (both are `ValueError` in the source),
plus `keyError` for `echo`'s raw dict access and `invalidRef` for a dangling
`ObjId`, which cannot arise from the Python API but is representable in the
heap model. -/
inductive Err where
  | messageNotFound (msg : String)
  | slotNotFound (name : String)
  | keyError (key : String)
  | invalidRef
deriving DecidableEq, Repr

/-- Result of running an engine operation: a new heap and the returned
object reference, an error, or fuel exhaustion (the source has no recursion
guard for evaluation; `timeout` is the model's stand-in for a still-running
computation). -/
inductive Outcome where
  | ok (heap : Heap) (ret : ObjId)
  | err (e : Err)
  | timeout
deriving DecidableEq, Repr

/-- Whether an outcome is a normal return (no raised error, no fuel
exhaustion). -/
def Outcome.isOk : Outcome → Bool
  | .ok _ _ => true
  | _ => false

/-- `self.copy()` (source lines 29-37): a brand-new object whose containers
are duplicated one level deep and whose primitive payload/behavior is carried
over.  In the heap model this is precisely a fresh cell with the same field
values: the new cell's containers are independent of the old cell's, while
the `ObjId`s inside them still point at the same objects. -/
def copyObj (heap : Heap) (i : ObjId) : Heap × ObjId :=
  match heap[i]? with
  | some o => (heap ++ [o], heap.length)
  | none => (heap, i)

/-- `assign_slot` (source lines 55-57): `self.slots[name] = obj`, mutating
the receiver cell in place. -/
def assign_slot (heap : Heap) (i : ObjId) (name : String) (v : ObjId) : Heap :=
  match heap[i]? with
  | some o => heap.set i { o with slots := dictInsert o.slots name v }
  | none => heap

/-- `make_parent` (source lines 59-64): if `name in self.slots`, append
`self.slots[name]` to `parent_slots`; otherwise raise `SlotNotFound` leaving
the heap untouched (the membership test precedes any mutation). -/
def make_parent (heap : Heap) (i : ObjId) (name : String) :
    Heap × Option Err :=
  match heap[i]? with
  | some o =>
      match dictGet o.slots name with
      | some v =>
          (heap.set i { o with parent_slots := o.parent_slots ++ [v] }, none)
      | none => (heap, some (.slotNotFound name))
  | none => (heap, some .invalidRef)

/-- `assign_parent_slot` (source lines 66-69): `assign_slot` then
`make_parent`. -/
def assign_parent_slot (heap : Heap) (i : ObjId) (name : String) (v : ObjId) :
    Heap × Option Err :=
  make_parent (assign_slot heap i name v) i name

/-- The loop of `_bfs_lookup` (source lines 89-109): pop the queue; skip
already-visited identities; otherwise mark visited, return the slot value on
a direct hit, or enqueue the not-yet-visited parents in declared order.
Fuel-free: the visited set bounds the number of productive iterations by the
heap size, so the recursion is well-founded. -/
def bfsLoop (heap : Heap) (msg : String) (queue : List ObjId)
    (visited : Finset ObjId) : Option ObjId :=
  match queue with
  | [] => none
  | cid :: rest =>
    if hvis : cid ∈ visited then
      bfsLoop heap msg rest visited
    else
      match hcell : heap[cid]? with
      | none => bfsLoop heap msg rest (insert cid visited)
      | some cur =>
        match dictGet cur.slots msg with
        | some v => some v
        | none =>
            bfsLoop heap msg
              (rest ++ cur.parent_slots.filter
                (fun p => decide (p ∉ insert cid visited)))
              (insert cid visited)
termination_by
  (heap.length + 1 - (visited.filter (fun i => i < heap.length)).card,
   queue.length)
decreasing_by
  · exact Prod.Lex.right _ (Nat.lt_succ_self _)
  · have hge : heap.length ≤ cid := by
      by_contra hlt
      push_neg at hlt
      rw [List.getElem?_eq_getElem hlt] at hcell
      exact Option.noConfusion hcell
    have : (insert cid visited).filter (fun i => i < heap.length) =
        visited.filter (fun i => i < heap.length) := by
      rw [Finset.filter_insert, if_neg (by omega)]
    rw [this]
    exact Prod.Lex.right _ (Nat.lt_succ_self _)
  · apply Prod.Lex.left
    have hlt : cid < heap.length := by
      by_contra hge
      push_neg at hge
      rw [List.getElem?_eq_none hge] at hcell
      exact Option.noConfusion hcell
    have hins : (insert cid visited).filter (fun i => i < heap.length) =
        insert cid (visited.filter (fun i => i < heap.length)) := by
      rw [Finset.filter_insert, if_pos hlt]
    have hnot : cid ∉ visited.filter (fun i => i < heap.length) := by
      simp only [Finset.mem_filter]
      exact fun h => hvis h.1
    have hsub : visited.filter (fun i => i < heap.length) ⊆
        Finset.range heap.length := by
      intro x hx
      simp only [Finset.mem_filter] at hx
      exact Finset.mem_range.mpr hx.2
    have hcard : (visited.filter (fun i => i < heap.length)).card ≤
        heap.length := by
      simpa using Finset.card_le_card hsub
    rw [hins, Finset.card_insert_of_not_mem hnot]
    omega

/-- `_bfs_lookup(self, message)`: run the loop from queue `[self]`, empty
visited set. -/
def bfs_lookup (heap : Heap) (self : ObjId) (msg : String) : Option ObjId :=
  bfsLoop heap msg [self] ∅

/-- Application of a native function (`self.primitive_function(self.copy())`).
`echo` reads `call_obj.slots["parameter"]`, raising `KeyError` when the slot
is absent, and returns the stored object reference unevaluated. -/
def applyPrim (f : PrimFn) (heap : Heap) (call : ObjId) : Outcome :=
  match f with
  | .echo =>
      match heap[call]? with
      | none => .err .invalidRef
      | some o =>
          match dictGet o.slots "parameter" with
          | some v => .ok heap v
          | none => .err (.keyError "parameter")

/-- The `for message in self.messages` loop of `evaluate` (source lines
16-19): send each message to the same copy `c`, keep only the last result,
stop at the first raised error.  `send` is the send-message operation at the
current fuel level. -/
def runMsgs (send : Heap → ObjId → String → Outcome) :
    Heap → ObjId → String → List String → Outcome
  | heap, c, m, ms =>
    match send heap c m with
    | .ok h r =>
        match ms with
        | [] => .ok h r
        | m2 :: ms2 => runMsgs send h c m2 ms2
    | e => e

/-- The two mutually recursive engine operations at one fuel level. -/
structure EngineFns where
  evalFn : Heap → ObjId → Outcome
  sendFn : Heap → ObjId → String → Outcome

/-- The engine, by structural recursion on fuel: level `fuel + 1` implements
`evaluate` (source lines 12-27) and `send_message` (source lines 39-44),
each cross-call going through level `fuel`.

`evaluate`, in the source's fixed precedence order: non-empty `messages`
run against a fresh copy; else a set `primitive_function` is applied to a
fresh copy; else a set (`is not None`) `primitive_value` returns a fresh
copy; else the receiver itself is returned unchanged.

`send_message`: `_bfs_lookup`, `MessageNotFound` on `None`, otherwise
`target_obj.evaluate()`. -/
def engine : Nat → EngineFns
  | 0 => ⟨fun _ _ => .timeout, fun _ _ _ => .timeout⟩
  | fuel + 1 =>
    { evalFn := fun heap self =>
        match heap[self]? with
        | none => .err .invalidRef
        | some obj =>
          match obj.messages with
          | m :: ms =>
              let p := copyObj heap self
              runMsgs (engine fuel).sendFn p.1 p.2 m ms
          | [] =>
            match obj.primitive_function with
            | some f =>
                let p := copyObj heap self
                applyPrim f p.1 p.2
            | none =>
              match obj.primitive_value with
              | some _ => .ok (copyObj heap self).1 (copyObj heap self).2
              | none => .ok heap self
      sendFn := fun heap self msg =>
        match bfs_lookup heap self msg with
        | none => .err (.messageNotFound msg)
        | some t => (engine fuel).evalFn heap t }

/-- `evaluate(self)` with the given fuel. -/
def evaluate (fuel : Nat) (heap : Heap) (self : ObjId) : Outcome :=
  (engine fuel).evalFn heap self

/-- `send_message(self, message)` with the given fuel. -/
def send_message (fuel : Nat) (heap : Heap) (self : ObjId) (msg : String) :
    Outcome :=
  (engine fuel).sendFn heap self msg

/-- `send_message_with_parameters` (source lines 46-53): same lookup, then
copy the found object, `assign_slot("parameter", parameter)` on the copy,
and evaluate the copy. -/
def send_message_with_parameters (fuel : Nat) (heap : Heap) (self : ObjId)
    (msg : String) (param : ObjId) : Outcome :=
  match bfs_lookup heap self msg with
  | none => .err (.messageNotFound msg)
  | some t =>
      let p := copyObj heap t
      let h2 := assign_slot p.1 p.2 "parameter" param
      evaluate fuel h2 p.2

/-- Python `str` of a primitive payload (`str(0) = "0"`, `str(False) =
"False"`, `str("") = ""`). -/
def strOfPrim : PrimValue → String
  | .pstr s => s
  | .pint n => toString n
  | .pbool b => if b then "True" else "False"

/-- The single-quote character, used by Python list `repr`. -/
def sq : String := (Char.ofNat 39).toString

/-- Python `repr` of a list of strings, as produced by the f-strings in
`__str__` (e.g. `['say']`). -/
def pyStrList (xs : List String) : String :=
  "[" ++ String.intercalate ", " (xs.map (fun s => sq ++ s ++ sq)) ++ "]"

/-- `__str__` (source lines 75-86): primitive value first (tested with
`is not None`, so falsy payloads still render), then the function
placeholder, then the messages-and-slots form, else the plain slots form. -/
def render (o : Obj) : String :=
  match o.primitive_value with
  | some v => strOfPrim v
  | none =>
    match o.primitive_function with
    | some _ => "<SelfObjectModel: primitive_function>"
    | none =>
      match o.messages with
      | _ :: _ =>
          "<SelfObjectModel: messages=" ++ pyStrList o.messages ++
            ", slots=" ++ pyStrList (o.slots.map Prod.fst) ++ ">"
      | [] => "<SelfObjectModel: slots=" ++
          pyStrList (o.slots.map Prod.fst) ++ ">"

/-- Reference-level model of the `__init__` idiom `self.slots = slots or {}`
(and likewise `parent_slots or []`, `messages or []`, source lines 4-9).
Containers are entities with identity, living in a store addressed by index;
an object field holds a container id.  `x or default` keeps the very
argument (same id — no defensive copy) when it is truthy (present and
non-empty), and allocates a fresh empty container when the argument is
`None` or empty (falsy). -/
def orDefault {α : Type} (store : List (List α)) (arg : Option Nat) :
    List (List α) × Nat :=
  match arg with
  | some i =>
      match store[i]? with
      | some l => if l.isEmpty then (store ++ [[]], store.length) else (store, i)
      | none => (store ++ [[]], store.length)
  | none => (store ++ [[]], store.length)

/-! ### Concrete object graphs used by the testable-property scenarios -/

/-- Receiver with both `messages = ["x"]` and `primitive_value = 5`; slot
`"x"` holds the distinguishable primitive `7` (spec §8, evaluate
precedence). -/
def evalPrecObj : Obj :=
  { slots := [("x", 1)], messages := ["x"], primitive_value := some (.pint 5) }

/-- The distinguishable primitive stored in slot `"x"`. -/
def sevenObj : Obj := { primitive_value := some (.pint 7) }

/-- Heap for the evaluate-precedence scenario: cell 0 is `evalPrecObj`,
cell 1 the primitive `7`. -/
def evalPrecHeap : Heap := [evalPrecObj, sevenObj]

/-- Breadth-first tie-break scenario (spec §8): `R` (cell 0) has parents
`[P1, P2]`; `P1` (cell 1) lacks `"k"` but has parent `G` (cell 3) holding
`"k" ↦ 4`; `P2` (cell 2) holds `"k" ↦ 5` directly. -/
def bfsTieHeap : Heap :=
  [ { parent_slots := [1, 2] },
    { parent_slots := [3] },
    { slots := [("k", 5)] },
    { slots := [("k", 4)] },
    { primitive_value := some (.pstr "g") },
    { primitive_value := some (.pstr "p2") } ]

/-- Declaration-order scenario: both parents hold `"k"` directly; the
earlier-declared parent (cell 1, `"k" ↦ 3`) must win over cell 2
(`"k" ↦ 4`). -/
def bfsOrderHeap : Heap :=
  [ { parent_slots := [1, 2] },
    { slots := [("k", 3)] },
    { slots := [("k", 4)] },
    { primitive_value := some (.pstr "a") },
    { primitive_value := some (.pstr "b") } ]

/-- Cycle-safety scenario (spec §8): `A` (cell 0) and `B` (cell 1) are
mutual parents. -/
def cycleHeap : Heap := [{ parent_slots := [1] }, { parent_slots := [0] }]

/-- Shadowing scenario (spec §8 lookup precedence): the receiver holds
`"k" ↦ 2` directly and its parent (cell 1) holds `"k" ↦ 3`. -/
def shadowHeap : Heap :=
  [ { slots := [("k", 2)], parent_slots := [1] },
    { slots := [("k", 3)] },
    { primitive_value := some (.pstr "mine") },
    { primitive_value := some (.pstr "theirs") } ]

/-- A receiver whose slot `"k"` holds an object that itself evaluates by
sending `"k"` — the nested send fails, although the outer lookup
succeeded. -/
def nestedFailHeap : Heap := [{ slots := [("k", 1)] }, { messages := ["k"] }]

/-- The parameter-passing scenario of the driver (source lines 124-129):
cell 0 holds slot `"echo"` pointing at the `echo` primitive function
(cell 1); cell 2 is the argument object wrapping `"Hello"`. -/
def echoHeap : Heap :=
  [ { slots := [("echo", 1)] },
    { primitive_function := some .echo },
    { primitive_value := some (.pstr "Hello") } ]

/-- An object whose entire behavior is the script `["x"]`, with no slot
`"x"` reachable: evaluating it raises `MessageNotFound`. -/
def msgsOnlyHeap : Heap := [{ messages := ["x"] }]

/-- The copy of the `echo` object after `assign_slot("parameter", 2)`: the
call object a native function receives. -/
def echoCallObj : Obj :=
  { slots := [("parameter", 2)], primitive_function := some .echo }

/-- An object with the falsy non-None payload `0` and nothing else. -/
def zeroObj : Obj := { primitive_value := some (.pint 0) }

/-- Heap holding just `zeroObj`. -/
def zeroHeap : Heap := [zeroObj]

/-- `make_parent` scenario (driver lines 136-138): cell 0 holds slot
`"color"` pointing at the `"blue"` primitive (cell 1). -/
def colorHeap : Heap :=
  [ { slots := [("color", 1)] }, { primitive_value := some (.pstr "blue") } ]

/-! ### Computation lemmas

`bfsLoop` is defined by well-founded recursion, so its concrete and symbolic
behavior is driven by one unconditional step lemma per branch. -/

theorem bfsLoop_nil (heap : Heap) (msg : String) (visited : Finset ObjId) :
    bfsLoop heap msg [] visited = none := by
  rw [bfsLoop.eq_def]

theorem bfsLoop_visited (heap : Heap) (msg : String) (cid : ObjId)
    (rest : List ObjId) (visited : Finset ObjId) (h : cid ∈ visited) :
    bfsLoop heap msg (cid :: rest) visited = bfsLoop heap msg rest visited := by
  conv_lhs => rw [bfsLoop.eq_def]
  simp only [dif_pos h]

theorem bfsLoop_dangling (heap : Heap) (msg : String) (cid : ObjId)
    (rest : List ObjId) (visited : Finset ObjId) (h : cid ∉ visited)
    (h2 : heap[cid]? = none) :
    bfsLoop heap msg (cid :: rest) visited =
      bfsLoop heap msg rest (insert cid visited) := by
  conv_lhs => rw [bfsLoop.eq_def]
  simp only [dif_neg h]
  split
  · rfl
  · simp_all

theorem bfsLoop_hit (heap : Heap) (msg : String) (cid : ObjId)
    (rest : List ObjId) (visited : Finset ObjId) (cur : Obj) (v : ObjId)
    (h : cid ∉ visited) (h2 : heap[cid]? = some cur)
    (h3 : dictGet cur.slots msg = some v) :
    bfsLoop heap msg (cid :: rest) visited = some v := by
  conv_lhs => rw [bfsLoop.eq_def]
  simp only [dif_neg h]
  split
  · simp_all
  · simp_all

theorem bfsLoop_miss (heap : Heap) (msg : String) (cid : ObjId)
    (rest : List ObjId) (visited : Finset ObjId) (cur : Obj)
    (h : cid ∉ visited) (h2 : heap[cid]? = some cur)
    (h3 : dictGet cur.slots msg = none) :
    bfsLoop heap msg (cid :: rest) visited =
      bfsLoop heap msg
        (rest ++ cur.parent_slots.filter
          (fun p => decide (p ∉ insert cid visited)))
        (insert cid visited) := by
  conv_lhs => rw [bfsLoop.eq_def]
  simp only [dif_neg h]
  split
  · simp_all
  · simp_all

/-- Setting the freshly appended cell rewrites just that cell. -/
theorem set_append_length {α : Type} (l : List α) (x y : α) :
    (l ++ [x]).set l.length y = l ++ [y] := by
  induction l with
  | nil => rfl
  | cons a t ih => simp [List.set, ih]

/-- Reading below the appended tail sees the original list. -/
theorem getElem?_append_lt {α : Type} (l₁ l₂ : List α) (i : Nat)
    (h : i < l₁.length) : (l₁ ++ l₂)[i]? = l₁[i]? := by
  rw [List.getElem?_append, if_pos h]

/-- `assign_slot` at a live cell rewrites just that cell's dict. -/
theorem assign_slot_eq (heap : Heap) (i : ObjId) (obj : Obj) (name : String)
    (v : ObjId) (h : heap[i]? = some obj) :
    assign_slot heap i name v =
      heap.set i { obj with slots := dictInsert obj.slots name v } := by
  simp [assign_slot, h]

/-- `copyObj` at a live cell appends a cell with the same field values. -/
theorem copyObj_eq (heap : Heap) (i : ObjId) (o : Obj)
    (h : heap[i]? = some o) : copyObj heap i = (heap ++ [o], heap.length) := by
  simp [copyObj, h]

/-- `send_message` is the send half of the engine at the same fuel. -/
theorem send_message_fn (fuel : Nat) :
    send_message fuel = (engine fuel).sendFn := rfl

/-- A failed lookup makes `send_message` raise `MessageNotFound`. -/
theorem send_message_none (fuel : Nat) (heap : Heap) (self : ObjId)
    (msg : String) (h : bfs_lookup heap self msg = none) :
    send_message (fuel + 1) heap self msg = .err (.messageNotFound msg) := by
  simp [send_message, engine, h]

/-- A successful lookup makes `send_message` evaluate the found object. -/
theorem send_message_some (fuel : Nat) (heap : Heap) (self : ObjId)
    (msg : String) (t : ObjId) (h : bfs_lookup heap self msg = some t) :
    send_message (fuel + 1) heap self msg = evaluate fuel heap t := by
  simp [send_message, engine, evaluate, h]

/-- `evaluate`, branch 1: non-empty `messages` run against one fresh copy. -/
theorem evaluate_msgs (fuel : Nat) (heap : Heap) (self : ObjId) (obj : Obj)
    (m : String) (ms : List String) (hself : heap[self]? = some obj)
    (hm : obj.messages = m :: ms) :
    evaluate (fuel + 1) heap self =
      runMsgs (send_message fuel) (heap ++ [obj]) heap.length m ms := by
  simp [evaluate, engine, hself, hm, copyObj, send_message_fn]

/-- `evaluate`, branch 2: a set `primitive_function` is applied to a fresh
copy. -/
theorem evaluate_primfn (fuel : Nat) (heap : Heap) (self : ObjId) (obj : Obj)
    (f : PrimFn) (hself : heap[self]? = some obj) (hm : obj.messages = [])
    (hf : obj.primitive_function = some f) :
    evaluate (fuel + 1) heap self = applyPrim f (heap ++ [obj]) heap.length := by
  simp [evaluate, engine, hself, hm, hf, copyObj]

/-- `evaluate`, branch 3: a set `primitive_value` returns a fresh copy. -/
theorem evaluate_primval (fuel : Nat) (heap : Heap) (self : ObjId) (obj : Obj)
    (v : PrimValue) (hself : heap[self]? = some obj) (hm : obj.messages = [])
    (hf : obj.primitive_function = none) (hv : obj.primitive_value = some v) :
    evaluate (fuel + 1) heap self = .ok (heap ++ [obj]) heap.length := by
  simp [evaluate, engine, hself, hm, hf, hv, copyObj]

/-- `evaluate`, branch 4: a plain object returns itself unchanged. -/
theorem evaluate_plain (fuel : Nat) (heap : Heap) (self : ObjId) (obj : Obj)
    (hself : heap[self]? = some obj) (hm : obj.messages = [])
    (hf : obj.primitive_function = none) (hv : obj.primitive_value = none) :
    evaluate (fuel + 1) heap self = .ok heap self := by
  simp [evaluate, engine, hself, hm, hf, hv]

/-- A one-message script returns that send's result. -/
theorem runMsgs_single (send : Heap → ObjId → String → Outcome) (h : Heap)
    (c : ObjId) (m : String) : runMsgs send h c m [] = send h c m := by
  rw [runMsgs]
  cases send h c m <;> rfl

/-- A successful send lets the script continue on the same copy, its result
discarded. -/
theorem runMsgs_step (send : Heap → ObjId → String → Outcome) (h : Heap)
    (c : ObjId) (m m2 : String) (ms2 : List String) (h2 : Heap) (r : ObjId)
    (hs : send h c m = .ok h2 r) :
    runMsgs send h c m (m2 :: ms2) = runMsgs send h2 c m2 ms2 := by
  rw [runMsgs, hs]

/-- A failed send aborts the script with that failure. -/
theorem runMsgs_abort (send : Heap → ObjId → String → Outcome) (h : Heap)
    (c : ObjId) (m : String) (ms : List String) (e : Err)
    (hs : send h c m = .err e) :
    runMsgs send h c m ms = .err e := by
  rw [runMsgs, hs]

/-! ### Claims -/

set_option maxRecDepth 8000

/-- **C1.** `evaluate` follows the fixed four-way precedence.  If `messages`
is non-empty it copies the receiver once and runs the whole script against
that same copy via `send_message` (the `runMsgs` clauses show each step sends
to the same copy `c`, discards the intermediate result `r`, and returns the
last send's result); with empty `messages` a set `primitive_function` is
applied to a fresh copy; else a set `primitive_value` returns a fresh copy;
else the receiver itself comes back unchanged (same heap, same reference).
The branch tests never consult `primitive_value` before `messages`, so an
object with both runs its messages. -/
theorem claim1_evaluate_precedence (fuel : Nat) (heap : Heap) (self : ObjId)
    (obj : Obj) (hself : heap[self]? = some obj) :
    (∀ m ms, obj.messages = m :: ms →
      evaluate (fuel + 1) heap self =
        runMsgs (send_message fuel) (heap ++ [obj]) heap.length m ms) ∧
    (∀ f, obj.messages = [] → obj.primitive_function = some f →
      evaluate (fuel + 1) heap self = applyPrim f (heap ++ [obj]) heap.length) ∧
    (∀ v, obj.messages = [] → obj.primitive_function = none →
      obj.primitive_value = some v →
      evaluate (fuel + 1) heap self = .ok (heap ++ [obj]) heap.length) ∧
    (obj.messages = [] → obj.primitive_function = none →
      obj.primitive_value = none →
      evaluate (fuel + 1) heap self = .ok heap self) ∧
    (∀ h c m, runMsgs (send_message fuel) h c m [] = send_message fuel h c m) ∧
    (∀ h c m m2 ms2 h2 r, send_message fuel h c m = .ok h2 r →
      runMsgs (send_message fuel) h c m (m2 :: ms2) =
        runMsgs (send_message fuel) h2 c m2 ms2) := by
  exact ⟨fun m ms hm => evaluate_msgs fuel heap self obj m ms hself hm,
    fun f hm hf => evaluate_primfn fuel heap self obj f hself hm hf,
    fun v hm hf hv => evaluate_primval fuel heap self obj v hself hm hf hv,
    fun hm hf hv => evaluate_plain fuel heap self obj hself hm hf hv,
    fun h c m => runMsgs_single (send_message fuel) h c m,
    fun h c m m2 ms2 h2 r hs =>
      runMsgs_step (send_message fuel) h c m m2 ms2 h2 r hs⟩

/-- Witness for C1: the spec §8 evaluate-precedence scenario.  The object
with `messages = ["x"]` and `primitive_value = 5` evaluates by sending
`"x"`, producing (a copy of) the primitive `7` — not the primitive `5`. -/
theorem claim1_evaluate_precedence_witness :
    evaluate 3 evalPrecHeap 0 =
      .ok (evalPrecHeap ++ [evalPrecObj] ++ [sevenObj]) 3 := by
  have h := (claim1_evaluate_precedence 2 evalPrecHeap 0 evalPrecObj
    (by rfl)).1 "x" [] (by rfl)
  rw [h]
  rw [runMsgs]
  simp [send_message, engine, evaluate, bfs_lookup, bfsLoop_nil,
    bfsLoop_visited, bfsLoop_hit, bfsLoop_miss, dictGet, evalPrecHeap,
    evalPrecObj, sevenObj, copyObj]

/-- **C2.** The shared lookup returns the first holder of the name in
breadth-first order: (a) a direct slot always shadows anything reachable via
parents — for every heap, if the receiver's own dict holds `msg ↦ v` the
lookup returns `v` straight away; (b) in the grandparent scenario (`R` with
parents `[P1, P2]`, `P1` lacking `"k"` but its parent `G` holding it, `P2`
holding it directly) the lookup returns `P2`'s value `5`, and `send_message`
evaluates exactly that value; (c) with two same-depth parents both holding
`"k"`, the earlier-declared parent wins. -/
theorem claim2_bfs_lookup_order :
    (∀ (heap : Heap) (self : ObjId) (msg : String) (obj : Obj) (v : ObjId),
      heap[self]? = some obj → dictGet obj.slots msg = some v →
      bfs_lookup heap self msg = some v) ∧
    bfs_lookup bfsTieHeap 0 "k" = some 5 ∧
    send_message 2 bfsTieHeap 0 "k" =
      .ok (bfsTieHeap ++ [{ primitive_value := some (.pstr "p2") }]) 6 ∧
    bfs_lookup bfsOrderHeap 0 "k" = some 3 := by
  refine ⟨?_, ?_, ?_, ?_⟩
  · intro heap self msg obj v hself hslot
    rw [bfs_lookup,
      bfsLoop_hit heap msg self [] ∅ obj v (Finset.not_mem_empty self) hself
        hslot]
  · simp [bfs_lookup, bfsLoop_nil, bfsLoop_visited, bfsLoop_hit, bfsLoop_miss,
      dictGet, bfsTieHeap]
  · simp [send_message, engine, evaluate, bfs_lookup, bfsLoop_nil,
      bfsLoop_visited, bfsLoop_hit, bfsLoop_miss, dictGet, bfsTieHeap, copyObj]
  · simp [bfs_lookup, bfsLoop_nil, bfsLoop_visited, bfsLoop_hit, bfsLoop_miss,
      dictGet, bfsOrderHeap]

/-- Witness for C2: in the shadowing scenario the receiver's own `"k" ↦ 2`
wins over the parent's `"k" ↦ 3`. -/
theorem claim2_bfs_lookup_order_witness :
    bfs_lookup shadowHeap 0 "k" = some 2 :=
  claim2_bfs_lookup_order.1 shadowHeap 0 "k"
    { slots := [("k", 2)], parent_slots := [1] } 2 (by rfl) (by rfl)

/-- **C3.** The lookup always terminates — it is defined without fuel, by
well-founded recursion on the identity-keyed visited set — so a failed
lookup yields the `MessageNotFound` error, never a hang: for every heap
(cyclic ones included) a `none` lookup makes `send_message` return the
error, and in the concrete two-object cycle (`A` and `B` mutual parents)
`send_message A "missing"` returns `MessageNotFound` at every fuel. -/
theorem claim3_lookup_terminates :
    (∀ (heap : Heap) (self : ObjId) (msg : String) (fuel : Nat),
      bfs_lookup heap self msg = none →
      send_message (fuel + 1) heap self msg = .err (.messageNotFound msg)) ∧
    (∀ fuel : Nat, send_message (fuel + 1) cycleHeap 0 "missing" =
      .err (.messageNotFound "missing")) := by
  have hlookup : ∀ (heap : Heap) (self : ObjId) (msg : String) (fuel : Nat),
      bfs_lookup heap self msg = none →
      send_message (fuel + 1) heap self msg = .err (.messageNotFound msg) := by
    intro heap self msg fuel h
    simp [send_message, engine, h]
  refine ⟨hlookup, fun fuel => hlookup cycleHeap 0 "missing" fuel ?_⟩
  simp [bfs_lookup, bfsLoop_nil, bfsLoop_visited, bfsLoop_dangling,
    bfsLoop_hit, bfsLoop_miss, dictGet, cycleHeap]

/-- Witness for C3: the cyclic lookup at fuel 1 returns the error. -/
theorem claim3_lookup_terminates_witness :
    send_message 1 cycleHeap 0 "missing" =
      .err (.messageNotFound "missing") :=
  claim3_lookup_terminates.2 0

/-- **C4 (counterexample).** The claimed equivalence "raises MessageNotFound
naming the requested message iff the lookup finds no holder" is false: in
`nestedFailHeap` the lookup for `"k"` succeeds (it finds cell 1), yet
`send_message` still ends in `MessageNotFound "k"`, because the found object
evaluates by sending `"k"` to a copy from which the name is unreachable. -/
theorem claim4_countereg :
    bfs_lookup nestedFailHeap 0 "k" = some 1 ∧
    send_message 3 nestedFailHeap 0 "k" = .err (.messageNotFound "k") := by
  have hfind : bfs_lookup nestedFailHeap 0 "k" = some 1 := by
    rw [bfs_lookup, bfsLoop_hit nestedFailHeap "k" 0 [] ∅ { slots := [("k", 1)] }
      1 (Finset.not_mem_empty 0) rfl rfl]
  refine ⟨hfind, ?_⟩
  show send_message (2 + 1) nestedFailHeap 0 "k" = _
  rw [send_message_some 2 nestedFailHeap 0 "k" 1 hfind]
  show evaluate (1 + 1) nestedFailHeap 1 = _
  rw [evaluate_msgs 1 nestedFailHeap 1 { messages := ["k"] } "k" [] rfl rfl]
  rw [runMsgs_single]
  show send_message (0 + 1) _ 2 "k" = _
  rw [send_message_none 0 _ 2 "k"]
  rw [bfs_lookup]
  rw [bfsLoop_miss _ "k" 2 [] ∅ { messages := ["k"] }
    (Finset.not_mem_empty 2) rfl rfl]
  simp [bfsLoop_nil]

/-- **C4 (amended).** `send_message` raises `MessageNotFound` naming the
requested message *if* the lookup finds no holder; when the lookup succeeds
it returns the result of evaluating the found object (never a direct field
read) — and that evaluation may itself raise `MessageNotFound`, possibly
naming the same message. -/
theorem claim4_send_message (fuel : Nat) (heap : Heap) (self : ObjId)
    (msg : String) :
    (bfs_lookup heap self msg = none →
      send_message (fuel + 1) heap self msg = .err (.messageNotFound msg)) ∧
    (∀ t, bfs_lookup heap self msg = some t →
      send_message (fuel + 1) heap self msg = evaluate fuel heap t) := by
  constructor
  · intro h
    simp [send_message, engine, h]
  · intro t h
    simp [send_message, engine, evaluate, h]

/-- Witness for C4 (amended): looking up `"color"` on `colorHeap` finds
cell 1, and the send returns that cell's evaluation. -/
theorem claim4_send_message_witness :
    send_message 2 colorHeap 0 "color" = evaluate 1 colorHeap 1 :=
  (claim4_send_message 1 colorHeap 0 "color").2 1
    (by simp [bfs_lookup, bfsLoop_hit, dictGet, colorHeap])

/-- **C8 (counterexample).** `evaluate` does have a failure mode: an object
whose script is `["x"]` with no `"x"` reachable from its copy makes
`evaluate` itself end in `MessageNotFound "x"`, contradicting the "failure:
none" row of the interface table. -/
theorem claim8_countereg :
    evaluate 2 msgsOnlyHeap 0 = .err (.messageNotFound "x") := by
  show evaluate (1 + 1) msgsOnlyHeap 0 = _
  rw [evaluate_msgs 1 msgsOnlyHeap 0 { messages := ["x"] } "x" [] rfl rfl]
  rw [runMsgs_single]
  show send_message (0 + 1) _ 1 "x" = _
  rw [send_message_none 0 _ 1 "x"]
  rw [bfs_lookup]
  rw [bfsLoop_miss _ "x" 1 [] ∅ { messages := ["x"] }
    (Finset.not_mem_empty 1) rfl rfl]
  simp [bfsLoop_nil]

/-- **C8 (amended).** `evaluate` introduces no failure of its own: any error
it reports is propagated from the message sends a non-empty script performs
(or from the native function it invokes).  For every object with empty
`messages` and unset `primitive_function`, `evaluate` returns normally. -/
theorem claim8_evaluate_no_own_failure (fuel : Nat) (heap : Heap)
    (self : ObjId) (obj : Obj) (hself : heap[self]? = some obj)
    (hm : obj.messages = []) (hf : obj.primitive_function = none) :
    (evaluate (fuel + 1) heap self).isOk = true := by
  rcases hv : obj.primitive_value with _ | v
  · simp [evaluate, engine, hself, hm, hf, hv, Outcome.isOk]
  · simp [evaluate, engine, hself, hm, hf, hv, copyObj, Outcome.isOk]

/-- Witness for C8 (amended): the bare-payload object `0` evaluates
normally. -/
theorem claim8_evaluate_no_own_failure_witness :
    (evaluate 1 zeroHeap 0).isOk = true :=
  claim8_evaluate_no_own_failure 0 zeroHeap 0 zeroObj rfl rfl rfl

/-- **C5.** `send_message_with_parameters`: on lookup failure it raises the
same `MessageNotFound` as `send_message`; on success it evaluates a *copy*
of the found object extended with a slot literally named `"parameter"`
holding the argument, while the found object's own cell keeps its original
fields (no `"parameter"` slot is added to it).  In the driver's literal
`echo` scenario, sending `"echo"` with the object wrapping `"Hello"` returns
exactly the supplied argument reference (cell 2), whose payload is
`"Hello"`. -/
theorem claim5_send_with_params (fuel : Nat) (heap : Heap) (self : ObjId)
    (msg : String) (param : ObjId) :
    (bfs_lookup heap self msg = none →
      send_message_with_parameters fuel heap self msg param =
        .err (.messageNotFound msg)) ∧
    (∀ t tobj, bfs_lookup heap self msg = some t → heap[t]? = some tobj →
      send_message_with_parameters fuel heap self msg param =
        evaluate fuel
          (heap ++
            [{ tobj with slots := dictInsert tobj.slots "parameter" param }])
          heap.length ∧
      (heap ++
        [{ tobj with slots := dictInsert tobj.slots "parameter" param }])[t]? =
          some tobj) ∧
    send_message_with_parameters 1 echoHeap 0 "echo" 2 =
      .ok (echoHeap ++ [echoCallObj] ++ [echoCallObj]) 2 ∧
    (echoHeap ++ [echoCallObj] ++ [echoCallObj])[2]? =
      some { primitive_value := some (.pstr "Hello") } ∧
    strOfPrim (.pstr "Hello") = "Hello" := by
  have hecho : bfs_lookup echoHeap 0 "echo" = some 1 := by
    rw [bfs_lookup, bfsLoop_hit echoHeap "echo" 0 [] ∅ { slots := [("echo", 1)] }
      1 (Finset.not_mem_empty 0) rfl rfl]
  refine ⟨?_, ?_, ?_, by rfl, by rfl⟩
  · intro h
    simp [send_message_with_parameters, h]
  · intro t tobj ht htobj
    have hlt : t < heap.length := by
      by_contra hge
      push_neg at hge
      rw [List.getElem?_eq_none hge] at htobj
      exact Option.noConfusion htobj
    constructor
    · simp only [send_message_with_parameters, ht,
        copyObj_eq heap t tobj htobj,
        assign_slot_eq (heap ++ [tobj]) heap.length tobj "parameter" param
          (List.getElem?_concat_length _ _),
        set_append_length]
    · rw [getElem?_append_lt _ _ t hlt]
      exact htobj
  · rw [send_message_with_parameters, hecho]
    rfl

/-- Witness for C5: the general success clause applied to the `echo`
scenario — the send evaluates the extended copy (cell 3), and the found
`echo` object (cell 1) is left without a `"parameter"` slot. -/
theorem claim5_send_with_params_witness :
    send_message_with_parameters 1 echoHeap 0 "echo" 2 =
      evaluate 1 (echoHeap ++ [echoCallObj]) 3 ∧
    (echoHeap ++ [echoCallObj])[1]? =
      some { primitive_function := some .echo } := by
  have h := (claim5_send_with_params 1 echoHeap 0 "echo" 2).2.1 1
    { primitive_function := some .echo }
    (by rw [bfs_lookup, bfsLoop_hit echoHeap "echo" 0 [] ∅
      { slots := [("echo", 1)] } 1 (Finset.not_mem_empty 0) rfl rfl]) rfl
  exact ⟨h.1, h.2⟩

/-- **C6.** `make_parent` raises `SlotNotFound` exactly when the name is
absent from the receiver's own slots, and then returns the heap completely
unchanged; on success it appends `slots[name]` to `parent_slots` without
touching `slots`, so the same reference is afterwards reachable both as the
direct slot and as the last parent. -/
theorem claim6_make_parent (heap : Heap) (i : ObjId) (name : String)
    (obj : Obj) (hself : heap[i]? = some obj) :
    (dictGet obj.slots name = none →
      make_parent heap i name = (heap, some (.slotNotFound name))) ∧
    (∀ v, dictGet obj.slots name = some v →
      make_parent heap i name =
        (heap.set i { obj with parent_slots := obj.parent_slots ++ [v] },
          none) ∧
      (heap.set i
        { obj with parent_slots := obj.parent_slots ++ [v] })[i]? =
          some { obj with parent_slots := obj.parent_slots ++ [v] }) := by
  have hlt : i < heap.length := by
    by_contra hge
    push_neg at hge
    rw [List.getElem?_eq_none hge] at hself
    exact Option.noConfusion hself
  constructor
  · intro h
    simp [make_parent, hself, h]
  · intro v h
    exact ⟨by simp [make_parent, hself, h],
      List.getElem?_set_eq_of_lt _ (by simpa using hlt)⟩

/-- Witness for C6: on `colorHeap`, promoting the absent name `"missing"`
fails with `SlotNotFound` leaving the heap unchanged, while promoting
`"color"` appends cell 1 to the parents and keeps the slot. -/
theorem claim6_make_parent_witness :
    make_parent colorHeap 0 "missing" =
      (colorHeap, some (.slotNotFound "missing")) ∧
    make_parent colorHeap 0 "color" =
      (colorHeap.set 0 { slots := [("color", 1)], parent_slots := [1] },
        none) := by
  have h := claim6_make_parent colorHeap 0 "missing"
    { slots := [("color", 1)] } rfl
  have h2 := claim6_make_parent colorHeap 0 "color"
    { slots := [("color", 1)] } rfl
  exact ⟨h.1 rfl, (h2.2 1 rfl).1⟩

/-- **C7.** `copy` is pure and one level deep: it only appends a fresh cell
(`heap.length`, previously unmapped) carrying the very same field values —
so slot entries reference the same child objects and the primitive
payload/behavior is carried over, not duplicated — and every pre-existing
cell, the receiver included, is untouched.  Mutating the copy through
`assign_slot` leaves the receiver's cell as it was, and mutating the
receiver leaves the copy's cell as it was. -/
theorem claim7_copy_independence (heap : Heap) (i : ObjId) (o : Obj)
    (hself : heap[i]? = some o) :
    copyObj heap i = (heap ++ [o], heap.length) ∧
    (∀ j, j < heap.length → (heap ++ [o])[j]? = heap[j]?) ∧
    heap[heap.length]? = none ∧
    (heap ++ [o])[heap.length]? = some o ∧
    (∀ name v, (assign_slot (heap ++ [o]) heap.length name v)[i]? = some o) ∧
    (∀ name v,
      (assign_slot (heap ++ [o]) i name v)[heap.length]? = some o) := by
  have hlt : i < heap.length := by
    by_contra hge
    push_neg at hge
    rw [List.getElem?_eq_none hge] at hself
    exact Option.noConfusion hself
  refine ⟨copyObj_eq heap i o hself, fun j hj => getElem?_append_lt _ _ j hj,
    List.getElem?_eq_none (Nat.le_refl _), List.getElem?_concat_length _ _,
    ?_, ?_⟩
  · intro name v
    rw [assign_slot_eq (heap ++ [o]) heap.length o name v
      (List.getElem?_concat_length _ _)]
    rw [set_append_length, getElem?_append_lt _ _ i hlt]
    exact hself
  · intro name v
    rw [assign_slot_eq (heap ++ [o]) i o name v
      (by rw [getElem?_append_lt _ _ i hlt]; exact hself)]
    rw [List.getElem?_set_ne (Nat.ne_of_lt hlt)]
    exact List.getElem?_concat_length _ _

/-- Witness for C7: copying cell 0 of `colorHeap` appends it as cell 2, and
assigning a new slot on the copy leaves the original cell 0 with its single
`"color"` slot. -/
theorem claim7_copy_independence_witness :
    copyObj colorHeap 0 = (colorHeap ++ [{ slots := [("color", 1)] }], 2) ∧
    (assign_slot (colorHeap ++ [{ slots := [("color", 1)] }]) 2 "b" 1)[0]? =
      some { slots := [("color", 1)] } := by
  have h := claim7_copy_independence colorHeap 0 { slots := [("color", 1)] }
    rfl
  exact ⟨h.1, h.2.2.2.2.1 "b" 1⟩

/-- **C9.** The constructor's `or` idiom, at the reference level: a truthy
(non-empty) container argument is stored as the very same container (same
store index — no defensive copy, so later host mutations of that container
are visible through the object), while a `None` or empty argument is
replaced by a freshly allocated empty container at a previously unmapped
index. -/
theorem claim9_ctor_aliasing {α : Type} (store : List (List α)) (i : Nat)
    (l : List α) (hl : store[i]? = some l) :
    (l ≠ [] → orDefault store (some i) = (store, i)) ∧
    (l = [] → orDefault store (some i) = (store ++ [[]], store.length)) ∧
    orDefault store (none : Option Nat) = (store ++ [[]], store.length) ∧
    store[store.length]? = none := by
  refine ⟨?_, ?_, rfl, List.getElem?_eq_none (Nat.le_refl _)⟩
  · intro h
    simp [orDefault, hl, List.isEmpty_iff, h]
  · intro h
    simp [orDefault, hl, h]

/-- Witness for C9: passing the non-empty slots dict `[("a", 1)]` stores
exactly that container (index 0 of the store), unchanged. -/
theorem claim9_ctor_aliasing_witness :
    orDefault [[("a", (1 : ObjId))]] (some 0) = ([[("a", 1)]], 0) :=
  (claim9_ctor_aliasing [[("a", (1 : ObjId))]] 0 [("a", 1)] rfl).1
    (by simp)

/-- **C10.** "Set" means `is not None`, not truthiness: an object whose
`primitive_value` is any payload — the falsy `0`, `False`, `""` included —
with no messages and no primitive function takes the primitive-value branch:
`evaluate` returns a fresh shallow copy (cell `heap.length`, distinct from
the receiver's reference), and the rendering shows the payload itself
instead of the slot-list form. -/
theorem claim10_falsy_primitive (fuel : Nat) (heap : Heap) (self : ObjId)
    (obj : Obj) (v : PrimValue) (hself : heap[self]? = some obj)
    (hm : obj.messages = []) (hf : obj.primitive_function = none)
    (hv : obj.primitive_value = some v) :
    evaluate (fuel + 1) heap self = .ok (heap ++ [obj]) heap.length ∧
    self ≠ heap.length ∧
    render obj = strOfPrim v := by
  have hlt : self < heap.length := by
    by_contra hge
    push_neg at hge
    rw [List.getElem?_eq_none hge] at hself
    exact Option.noConfusion hself
  exact ⟨evaluate_primval fuel heap self obj v hself hm hf hv,
    Nat.ne_of_lt hlt, by rw [render, hv]⟩

/-- Witness for C10: the payload `0` is falsy yet `evaluate` still returns
a copy (cell 1 of the one-cell heap, not the receiver 0) and the object
renders as `"0"`. -/
theorem claim10_falsy_primitive_witness :
    evaluate 1 zeroHeap 0 = .ok (zeroHeap ++ [zeroObj]) 1 ∧
    (0 : ObjId) ≠ 1 ∧
    render zeroObj = "0" := by
  have h := claim10_falsy_primitive 0 zeroHeap 0 zeroObj (.pint 0) rfl rfl
    rfl rfl
  exact ⟨h.1, h.2.1, h.2.2⟩

end SelfModel
